import Mathlib

/-!
Shallow embedding of the dynamic_pricing repository's pricing core
(src/models/baseline_model.py, src/models/demand_model.py,
src/models/competitive_model.py), together with theorems settling the
frozen claims about it.

Python dictionaries keyed by a space id are embedded as association
lists in insertion order: lookup returns the first (and, for states a
Python dict can reach, the only) binding of a key, and insertion
overwrites an existing binding in place or appends a fresh one at the
end, exactly as a Python dict does.  Floating-point numbers are
idealised as real numbers.
-/

namespace DynamicPricing

abbrev SpaceId := String

/-- An association-list embedding of a Python `dict` keyed by space ids. -/
abbrev Dict (α : Type) : Type := List (SpaceId × α)

namespace Dict

/-- `d[k]` lookup, returning the first binding of `k` (Python dicts hold at
most one). -/
def get? {α : Type} : Dict α → SpaceId → Option α
  | [], _ => none
  | (k', v) :: rest, k => if k' = k then some v else get? rest k

/-- `d.get(k, v0)`: lookup with a default. -/
def getD {α : Type} (d : Dict α) (k : SpaceId) (v₀ : α) : α :=
  (d.get? k).getD v₀

/-- `k in d`. -/
def contains {α : Type} (d : Dict α) (k : SpaceId) : Bool :=
  (d.get? k).isSome

/-- `d[k] = v`: overwrite the first binding of `k` in place, or append a
fresh binding at the end, as a Python dict does. -/
def insert {α : Type} : Dict α → SpaceId → α → Dict α
  | [], k, v => [(k, v)]
  | (k', v') :: rest, k, v =>
      if k' = k then (k, v) :: rest else (k', v') :: insert rest k v

end Dict

/-!
### Shared Price Ledger operations

All three strategies share the two-dictionary ledger shape
(`current_prices : Dict ℝ`, `price_history : Dict (List ℝ)`) and the same
two state manipulations: lazy auto-vivification of an unseen unit
(`if space_id not in self.current_prices: ...` in every `update_price`)
and the final write-back
(`self.current_prices[space_id] = p; self.price_history[space_id].append(p)`).
-/

/-- The per-strategy price ledger: current prices and histories. -/
structure Ledger where
  current_prices : Dict ℝ
  price_history : Dict (List ℝ)

namespace Ledger

/-- Lines 21-23 of baseline_model.py (and their copies in the other two
models): seed an unseen unit with `base_price` and history `[base_price]`. -/
def vivify (L : Ledger) (sid : SpaceId) (base_price : ℝ) : Ledger :=
  if L.current_prices.contains sid then L
  else { current_prices := L.current_prices.insert sid base_price
         price_history := L.price_history.insert sid [base_price] }

/-- Lines 39-40 of baseline_model.py (and their copies): set the current
price and append it to the unit's history. -/
def record (L : Ledger) (sid : SpaceId) (p : ℝ) : Ledger :=
  { current_prices := L.current_prices.insert sid p
    price_history := L.price_history.insert sid (L.price_history.getD sid [] ++ [p]) }

/-- `self.current_prices[space_id]` read after vivification (always hits). -/
def price (L : Ledger) (sid : SpaceId) (base_price : ℝ) : ℝ :=
  L.current_prices.getD sid base_price

end Ledger

/-!
### BaselineLinearModel (src/models/baseline_model.py)
-/

structure BaselineLinearModel where
  base_price : ℝ
  alpha : ℝ
  ledger : Ledger

namespace BaselineLinearModel

/-- Lines 32-35 of baseline_model.py: the soft-bound dampening applied to
the candidate price before the hard clamp. -/
noncomputable def dampen (base_price new_price : ℝ) : ℝ :=
  if new_price < base_price * 0.5 then
    base_price * 0.5 + (new_price - base_price * 0.5) * 0.1
  else if new_price > base_price * 2.0 then
    base_price * 2.0 - (new_price - base_price * 2.0) * 0.1
  else new_price

/-- `update_price` (lines 19-42): vivify, add `alpha * occupancy_rate`,
dampen, hard-clamp, record.  Returns the new price and the new state. -/
noncomputable def update_price (m : BaselineLinearModel) (space_id : SpaceId)
    (occupancy_rate : ℝ) : ℝ × BaselineLinearModel :=
  let L := m.ledger.vivify space_id m.base_price
  let current_price := L.price space_id m.base_price
  let new_price := current_price + m.alpha * occupancy_rate
  let damped := dampen m.base_price new_price
  let final := max (m.base_price * 0.5) (min damped (m.base_price * 2.0))
  (final, { m with ledger := L.record space_id final })

/-- `get_current_price` (lines 44-46). -/
def get_current_price (m : BaselineLinearModel) (space_id : SpaceId) : ℝ :=
  m.ledger.current_prices.getD space_id m.base_price

/-- `get_price_history` (lines 48-50). -/
def get_price_history (m : BaselineLinearModel) (space_id : SpaceId) : List ℝ :=
  m.ledger.price_history.getD space_id [m.base_price]

end BaselineLinearModel

/-!
### DemandBasedModel (src/models/demand_model.py)

The demand-function parameters are assigned fixed literals in
`__init__` (lines 13-18) and never reassigned, so they are embedded as
constants.
-/

structure DemandBasedModel where
  base_price : ℝ
  ledger : Ledger

namespace DemandBasedModel

def alpha : ℝ := 0.6

def beta : ℝ := 0.3

def gamma : ℝ := 0.2

def delta : ℝ := 0.4

def epsilon : ℝ := 0.1

def lambda_param : ℝ := 0.8

/-- `calculate_demand` (lines 26-38): the raw weighted demand score. -/
noncomputable def calculate_demand (occupancy_rate queue_length traffic_level : ℝ)
    (is_special_day : Bool) (vehicle_weight : ℝ) : ℝ :=
  let normalized_queue := min (queue_length / 20.0) 1.0
  let normalized_traffic := (traffic_level - 1) / 9.0
  let special_day_factor : ℝ := if is_special_day then 1.0 else 0.0
  alpha * occupancy_rate + beta * normalized_queue - gamma * normalized_traffic +
    delta * special_day_factor + epsilon * vehicle_weight

/-- `normalize_demand` (lines 40-42): squash with `tanh`. -/
noncomputable def normalize_demand (demand : ℝ) : ℝ :=
  Real.tanh demand

/-- `update_price` (lines 44-60). -/
noncomputable def update_price (m : DemandBasedModel) (space_id : SpaceId)
    (occupancy_rate queue_length traffic_level : ℝ) (is_special_day : Bool)
    (vehicle_weight : ℝ) : ℝ × DemandBasedModel :=
  let L := m.ledger.vivify space_id m.base_price
  let demand := calculate_demand occupancy_rate queue_length traffic_level
    is_special_day vehicle_weight
  let normalized_demand := normalize_demand demand
  let new_price := m.base_price * (1 + lambda_param * normalized_demand)
  let clamped := max (m.base_price * 0.5) (min new_price (m.base_price * 2.0))
  (clamped, { m with ledger := L.record space_id clamped })

/-- `get_current_price` (lines 62-64). -/
def get_current_price (m : DemandBasedModel) (space_id : SpaceId) : ℝ :=
  m.ledger.current_prices.getD space_id m.base_price

/-- `get_price_history` (lines 66-68). -/
def get_price_history (m : DemandBasedModel) (space_id : SpaceId) : List ℝ :=
  m.ledger.price_history.getD space_id [m.base_price]

end DemandBasedModel

/-!
### CompetitivePricingModel (src/models/competitive_model.py)

The demand parameters (lines 14-19) and competition parameters
(lines 22-24) are fixed literals in `__init__`, embedded as constants.
-/

structure Location where
  latitude : ℝ
  longitude : ℝ

structure CompetitivePricingModel where
  base_price : ℝ
  ledger : Ledger
  locations : Dict Location

/-- A competitor record as built on lines 53-57 of competitive_model.py. -/
structure Competitor where
  space_id : SpaceId
  distance : ℝ
  price : ℝ

/-- A rerouting suggestion as built on lines 129-134 of competitive_model.py. -/
structure Suggestion where
  space_id : SpaceId
  distance_km : ℝ
  price : ℝ
  savings : ℝ

namespace CompetitivePricingModel

def alpha : ℝ := 0.6

def beta : ℝ := 0.3

def gamma : ℝ := 0.2

def delta : ℝ := 0.4

def epsilon : ℝ := 0.1

def lambda_param : ℝ := 0.8

def competition_radius : ℝ := 0.005

def competition_weight : ℝ := 0.3

def demand_weight : ℝ := 0.7

/-- `calculate_distance` (lines 33-35): planar Euclidean distance. -/
noncomputable def calculate_distance (lat1 lon1 lat2 lon2 : ℝ) : ℝ :=
  Real.sqrt ((lat1 - lat2) ^ 2 + (lon1 - lon2) ^ 2)

/-- The loop body of `find_competitors` (lines 45-57): walk the locations
dict in iteration order, skip the unit itself, and keep every other unit
within `competition_radius`, with its distance and current-price snapshot. -/
noncomputable def competitorScan (m : CompetitivePricingModel) (space_id : SpaceId)
    (current_location : Location) : List (SpaceId × Location) → List Competitor
  | [] => []
  | (other_space_id, other_location) :: rest =>
      if other_space_id = space_id then
        competitorScan m space_id current_location rest
      else
        let distance := calculate_distance
          current_location.latitude current_location.longitude
          other_location.latitude other_location.longitude
        if distance ≤ competition_radius then
          { space_id := other_space_id
            distance := distance
            price := m.ledger.current_prices.getD other_space_id m.base_price } ::
            competitorScan m space_id current_location rest
        else
          competitorScan m space_id current_location rest

/-- The sort key of line 59: compare candidates by distance. -/
noncomputable def distLE (a b : Competitor) : Bool :=
  decide (a.distance ≤ b.distance)

/-- `find_competitors` (lines 37-59). -/
noncomputable def find_competitors (m : CompetitivePricingModel)
    (space_id : SpaceId) : List Competitor :=
  match m.locations.get? space_id with
  | none => []
  | some current_location =>
      (competitorScan m space_id current_location m.locations).mergeSort distLE

/-- `calculate_demand` (lines 61-74); unlike the demand model's function of
the same name, this one already returns the `tanh`-squashed value. -/
noncomputable def calculate_demand (occupancy_rate queue_length traffic_level : ℝ)
    (is_special_day : Bool) (vehicle_weight : ℝ) : ℝ :=
  let normalized_queue := min (queue_length / 20.0) 1.0
  let normalized_traffic := (traffic_level - 1) / 9.0
  let special_day_factor : ℝ := if is_special_day then 1.0 else 0.0
  Real.tanh (alpha * occupancy_rate + beta * normalized_queue -
    gamma * normalized_traffic + delta * special_day_factor +
    epsilon * vehicle_weight)

/-- `calculate_competitive_adjustment` (lines 76-89).  `occupancy` and
`capacity` are the integer counts of the feature record. -/
noncomputable def calculate_competitive_adjustment (m : CompetitivePricingModel)
    (space_id : SpaceId) (occupancy capacity : ℤ) : ℝ :=
  let competitors := find_competitors m space_id
  if competitors.isEmpty then 0.0
  else
    let avg_price := (competitors.map Competitor.price).sum / (competitors.length : ℝ)
    let current_price := m.ledger.current_prices.getD space_id m.base_price
    if occupancy ≥ capacity then
      if avg_price < current_price then -0.1 else 0.05
    else
      (avg_price / current_price - 1) * 0.2

/-- `update_price` (lines 91-116). -/
noncomputable def update_price (m : CompetitivePricingModel) (space_id : SpaceId)
    (occupancy_rate queue_length traffic_level : ℝ) (is_special_day : Bool)
    (vehicle_weight : ℝ) (occupancy capacity : ℤ) :
    ℝ × CompetitivePricingModel :=
  let m' : CompetitivePricingModel :=
    { m with ledger := m.ledger.vivify space_id m.base_price }
  let demand := calculate_demand occupancy_rate queue_length traffic_level
    is_special_day vehicle_weight
  let demand_price := m'.base_price * (1 + lambda_param * demand)
  let adjustment := calculate_competitive_adjustment m' space_id occupancy capacity
  let competitive_price := m'.ledger.current_prices.getD space_id m'.base_price *
    (1 + adjustment)
  let final_price := demand_weight * demand_price + competition_weight * competitive_price
  let clamped := max (m'.base_price * 0.5) (min final_price (m'.base_price * 2.0))
  (clamped, { m' with ledger := m'.ledger.record space_id clamped })

/-- The loop body of `suggest_rerouting` (lines 126-134): keep, in order,
the competitors at most 10% above the current price, reporting kilometres
and savings. -/
noncomputable def reroutingScan (current_price : ℝ) : List Competitor → List Suggestion
  | [] => []
  | comp :: rest =>
      if comp.price ≤ current_price * 1.1 then
        { space_id := comp.space_id
          distance_km := comp.distance * 111
          price := comp.price
          savings := current_price - comp.price } :: reroutingScan current_price rest
      else
        reroutingScan current_price rest

/-- `suggest_rerouting` (lines 118-136). -/
noncomputable def suggest_rerouting (m : CompetitivePricingModel)
    (space_id : SpaceId) (occupancy capacity : ℤ) : List Suggestion :=
  if occupancy < capacity then []
  else
    let competitors := find_competitors m space_id
    let current_price := m.ledger.current_prices.getD space_id m.base_price
    (reroutingScan current_price competitors).take 3

/-- `get_current_price` (lines 138-140). -/
def get_current_price (m : CompetitivePricingModel) (space_id : SpaceId) : ℝ :=
  m.ledger.current_prices.getD space_id m.base_price

/-- `get_price_history` (lines 142-144). -/
def get_price_history (m : CompetitivePricingModel) (space_id : SpaceId) : List ℝ :=
  m.ledger.price_history.getD space_id [m.base_price]

end CompetitivePricingModel

/-!
### Repeated updates

`runBaseline`, `runDemand` and `runCompetitive` iterate a strategy's
`update_price` for one unit over a list of per-tick feature inputs, the
way the driver feeds one record per tick to a strategy.
-/

/-- The per-tick inputs of `DemandBasedModel.update_price`. -/
structure DemandInput where
  occupancy_rate : ℝ
  queue_length : ℝ
  traffic_level : ℝ
  is_special_day : Bool
  vehicle_weight : ℝ

/-- The per-tick inputs of `CompetitivePricingModel.update_price`. -/
structure CompetitiveInput where
  occupancy_rate : ℝ
  queue_length : ℝ
  traffic_level : ℝ
  is_special_day : Bool
  vehicle_weight : ℝ
  occupancy : ℤ
  capacity : ℤ

noncomputable def runBaseline (sid : SpaceId) :
    BaselineLinearModel → List ℝ → BaselineLinearModel
  | m, [] => m
  | m, occ :: rest => runBaseline sid (m.update_price sid occ).2 rest

noncomputable def runDemand (sid : SpaceId) :
    DemandBasedModel → List DemandInput → DemandBasedModel
  | m, [] => m
  | m, i :: rest =>
      runDemand sid
        (m.update_price sid i.occupancy_rate i.queue_length i.traffic_level
          i.is_special_day i.vehicle_weight).2 rest

noncomputable def runCompetitive (sid : SpaceId) :
    CompetitivePricingModel → List CompetitiveInput → CompetitivePricingModel
  | m, [] => m
  | m, i :: rest =>
      runCompetitive sid
        (m.update_price sid i.occupancy_rate i.queue_length i.traffic_level
          i.is_special_day i.vehicle_weight i.occupancy i.capacity).2 rest

/-!
### Concrete states used to witness the claim theorems
-/

/-- A fresh baseline model with the default parameters of `__init__`. -/
def sampleBaseline : BaselineLinearModel :=
  { base_price := 10, alpha := 0.5, ledger := ⟨[], []⟩ }

/-- A fresh demand model with the default base price. -/
def sampleDemand : DemandBasedModel :=
  { base_price := 10, ledger := ⟨[], []⟩ }

/-- A demand model that has already priced unit A. -/
def sampleDemandSeen : DemandBasedModel :=
  { base_price := 10, ledger := ⟨[("A", 12)], [("A", [10, 12])]⟩ }

/-- A fresh competitive model with no known locations. -/
def sampleCompetitiveEmpty : CompetitivePricingModel :=
  { base_price := 10, ledger := ⟨[], []⟩, locations := [] }

/-- A competitive model with two co-located units A and B, so that each is
the other's sole competitor at distance 0. -/
def sampleCompetitivePair : CompetitivePricingModel :=
  { base_price := 10
    ledger := ⟨[("A", 10), ("B", 5)], [("A", [10]), ("B", [5])]⟩
    locations := [("A", ⟨0, 0⟩), ("B", ⟨0, 0⟩)] }

/-- A competitive model knowing one unit, with a seeded ledger entry. -/
def sampleCompetitiveSolo : CompetitivePricingModel :=
  { base_price := 10
    ledger := ⟨[("A", 10)], [("A", [10])]⟩
    locations := [("A", ⟨0, 0⟩)] }

/-!
## Theorems

First the laboratory of small lemmas about the embedded operations, then
one theorem (with its witness or counterexample) per claim.
-/

namespace Dict

theorem get?_insert_self {α : Type} (d : Dict α) (k : SpaceId) (v : α) :
    (d.insert k v).get? k = some v := by
  induction d with
  | nil => simp [insert, get?]
  | cons p rest ih =>
      by_cases h : p.1 = k
      · simp [insert, h, get?]
      · simp [insert, h, get?, ih]

theorem get?_insert_ne {α : Type} (d : Dict α) (k k' : SpaceId) (v : α)
    (h : k ≠ k') : (d.insert k v).get? k' = d.get? k' := by
  induction d with
  | nil => simp [insert, get?, h]
  | cons p rest ih =>
      obtain ⟨pk, pv⟩ := p
      by_cases hpk : pk = k
      · subst hpk
        simp [insert, get?, h, ih]
      · by_cases hpk' : pk = k'
        · subst hpk'
          simp [insert, get?, hpk]
        · simp [insert, get?, hpk, hpk', ih]

end Dict

namespace Ledger

theorem record_price_self (L : Ledger) (sid : SpaceId) (p : ℝ) :
    (L.record sid p).current_prices.get? sid = some p :=
  Dict.get?_insert_self _ _ _

theorem record_history_self (L : Ledger) (sid : SpaceId) (p : ℝ) :
    (L.record sid p).price_history.get? sid =
      some (L.price_history.getD sid [] ++ [p]) :=
  Dict.get?_insert_self _ _ _

theorem record_frame (L : Ledger) (sid other : SpaceId) (p : ℝ) (h : sid ≠ other) :
    (L.record sid p).current_prices.get? other = L.current_prices.get? other ∧
      (L.record sid p).price_history.get? other = L.price_history.get? other :=
  ⟨Dict.get?_insert_ne _ _ _ _ h, Dict.get?_insert_ne _ _ _ _ h⟩

theorem vivify_frame (L : Ledger) (sid other : SpaceId) (b : ℝ) (h : sid ≠ other) :
    (L.vivify sid b).current_prices.get? other = L.current_prices.get? other ∧
      (L.vivify sid b).price_history.get? other = L.price_history.get? other := by
  unfold vivify
  by_cases hc : L.current_prices.contains sid
  · simp [hc]
  · simp [hc, Dict.get?_insert_ne _ _ _ _ h]

theorem vivify_of_absent (L : Ledger) (sid : SpaceId) (b : ℝ)
    (h : L.current_prices.get? sid = none) :
    (L.vivify sid b).current_prices.get? sid = some b ∧
      (L.vivify sid b).price_history.get? sid = some [b] := by
  unfold vivify Dict.contains
  simp [h, Dict.get?_insert_self]

theorem vivify_of_present (L : Ledger) (sid : SpaceId) (b p : ℝ)
    (h : L.current_prices.get? sid = some p) : L.vivify sid b = L := by
  unfold vivify Dict.contains
  simp [h]

end Ledger

/-- The hard clamp `max(min_price, min(x, max_price))` stays within the
bounds whenever the interval is nonempty. -/
theorem clamp_mem (a b x : ℝ) (hab : a ≤ b) :
    a ≤ max a (min x b) ∧ max a (min x b) ≤ b :=
  ⟨le_max_left _ _, max_le hab (min_le_right _ _)⟩

/-- When the value is already in bounds, the hard clamp is the identity. -/
theorem clamp_eq_self (a b x : ℝ) (ha : a ≤ x) (hb : x ≤ b) :
    max a (min x b) = x := by
  rw [min_eq_left hb, max_eq_right ha]

/-!
### Analytic facts about `tanh`

`np.tanh` is embedded as `Real.tanh`.  The bounds below are what the
no-competitor exactness claim needs: `tanh` stays below `1`, and on inputs
at least `-0.2` it stays at least `-0.2`.
-/

theorem sinh_le_mul_cosh (y : ℝ) (hy : 0 ≤ y) : Real.sinh y ≤ y * Real.cosh y := by
  have key : MonotoneOn (fun t : ℝ => t * Real.cosh t - Real.sinh t) (Set.Ici 0) := by
    refine @monotoneOn_of_hasDerivWithinAt_nonneg (Set.Ici 0) (convex_Ici 0)
      (fun t : ℝ => t * Real.cosh t - Real.sinh t) (fun x : ℝ => x * Real.sinh x)
      (Continuous.continuousOn (by continuity))
      (fun x _ => ?_) (fun x hx => ?_)
    · have h1 : HasDerivAt (fun t : ℝ => t * Real.cosh t - Real.sinh t)
          (1 * Real.cosh x + x * Real.sinh x - Real.cosh x) x :=
        ((hasDerivAt_id x).mul (Real.hasDerivAt_cosh x)).sub (Real.hasDerivAt_sinh x)
      have h2 : 1 * Real.cosh x + x * Real.sinh x - Real.cosh x = x * Real.sinh x := by
        ring
      exact (h2 ▸ h1).hasDerivWithinAt
    · rw [interior_Ici] at hx
      exact mul_nonneg (le_of_lt hx) (Real.sinh_nonneg_iff.mpr (le_of_lt hx))
  have h0 : (fun t : ℝ => t * Real.cosh t - Real.sinh t) 0 ≤
      (fun t : ℝ => t * Real.cosh t - Real.sinh t) y :=
    key (Set.left_mem_Ici) hy hy
  simp only [Real.cosh_zero, Real.sinh_zero, zero_mul, sub_zero] at h0
  linarith

theorem tanh_lt_one (x : ℝ) : Real.tanh x < 1 := by
  rw [Real.tanh_eq_sinh_div_cosh, div_lt_one (Real.cosh_pos x)]
  exact Real.sinh_lt_cosh x

theorem le_tanh_of_nonpos (x : ℝ) (hx : x ≤ 0) : x ≤ Real.tanh x := by
  rw [Real.tanh_eq_sinh_div_cosh, le_div_iff₀ (Real.cosh_pos x)]
  have h := sinh_le_mul_cosh (-x) (by linarith)
  rw [Real.sinh_neg, Real.cosh_neg] at h
  linarith

theorem tanh_nonneg (x : ℝ) (hx : 0 ≤ x) : 0 ≤ Real.tanh x := by
  rw [Real.tanh_eq_sinh_div_cosh]
  exact div_nonneg (Real.sinh_nonneg_iff.mpr hx) (Real.cosh_pos x).le

theorem tanh_ge_of_ge (x c : ℝ) (hc : c ≤ 0) (h : c ≤ x) : c ≤ Real.tanh x := by
  rcases le_or_lt 0 x with h0 | h0
  · exact hc.trans (tanh_nonneg x h0)
  · exact h.trans (le_tanh_of_nonpos x h0.le)

/-!
### Vivification does not change what the competitor scan sees
-/

theorem competitorScan_vivify (m : CompetitivePricingModel) (sid : SpaceId)
    (loc : Location) (l : List (SpaceId × Location)) :
    CompetitivePricingModel.competitorScan
        { m with ledger := m.ledger.vivify sid m.base_price } sid loc l =
      CompetitivePricingModel.competitorScan m sid loc l := by
  induction l with
  | nil => rfl
  | cons p rest ih =>
      obtain ⟨oid, oloc⟩ := p
      by_cases h : oid = sid
      · simp [CompetitivePricingModel.competitorScan, h, ih]
      · have hget : (m.ledger.vivify sid m.base_price).current_prices.get? oid =
            m.ledger.current_prices.get? oid :=
          (Ledger.vivify_frame m.ledger sid oid m.base_price (Ne.symm h)).1
        simp [CompetitivePricingModel.competitorScan, h, ih, Dict.getD, hget]

theorem find_competitors_vivify (m : CompetitivePricingModel) (sid : SpaceId) :
    CompetitivePricingModel.find_competitors
        { m with ledger := m.ledger.vivify sid m.base_price } sid =
      CompetitivePricingModel.find_competitors m sid := by
  unfold CompetitivePricingModel.find_competitors
  cases hl : m.locations.get? sid with
  | none => simp [hl]
  | some loc => simp [hl, competitorScan_vivify]

/-- Vivification does not change the unit's current price as read back
with the `base_price` default. -/
theorem vivify_price_getD (L : Ledger) (sid : SpaceId) (b : ℝ) :
    (L.vivify sid b).current_prices.getD sid b = L.current_prices.getD sid b := by
  unfold Ledger.vivify Dict.contains Dict.getD
  cases h : L.current_prices.get? sid with
  | some p => simp [h]
  | none => simp [h, Dict.get?_insert_self]

/-!
### The competitor scan and sort
-/

/-- Membership in the competitor scan: exactly the non-self location
entries within the radius, with the scanned distance and price snapshot. -/
theorem mem_competitorScan (m : CompetitivePricingModel) (sid : SpaceId)
    (loc : Location) (c : Competitor) (l : List (SpaceId × Location)) :
    c ∈ CompetitivePricingModel.competitorScan m sid loc l ↔
      ∃ oloc : Location, (c.space_id, oloc) ∈ l ∧ c.space_id ≠ sid ∧
        c.distance = CompetitivePricingModel.calculate_distance
          loc.latitude loc.longitude oloc.latitude oloc.longitude ∧
        c.distance ≤ CompetitivePricingModel.competition_radius ∧
        c.price = m.ledger.current_prices.getD c.space_id m.base_price := by
  induction l with
  | nil => simp [CompetitivePricingModel.competitorScan]
  | cons p rest ih =>
      obtain ⟨oid, oloc⟩ := p
      by_cases hsid : oid = sid
      · subst hsid
        rw [CompetitivePricingModel.competitorScan, if_pos rfl, ih]
        constructor
        · rintro ⟨ol, hol, hne, hrest⟩
          exact ⟨ol, List.mem_cons_of_mem _ hol, hne, hrest⟩
        · rintro ⟨ol, hol, hne, hrest⟩
          rcases List.mem_cons.mp hol with heq | hmem
          · exact absurd (congrArg Prod.fst heq) hne
          · exact ⟨ol, hmem, hne, hrest⟩
      · rw [CompetitivePricingModel.competitorScan, if_neg hsid]
        by_cases hrad : CompetitivePricingModel.calculate_distance
            loc.latitude loc.longitude oloc.latitude oloc.longitude ≤
            CompetitivePricingModel.competition_radius
        · rw [if_pos hrad]
          simp only [List.mem_cons, ih]
          constructor
          · rintro (rfl | ⟨ol, hol, hrest⟩)
            · exact ⟨oloc, Or.inl rfl, hsid, rfl, hrad, rfl⟩
            · exact ⟨ol, Or.inr hol, hrest⟩
          · rintro ⟨ol, hol | hol, hne, hd, hr, hp⟩
            · have h1 : c.space_id = oid := congrArg Prod.fst hol
              have h2 : ol = oloc := congrArg Prod.snd hol
              left
              obtain ⟨c1, c2, c3⟩ := c
              simp only at h1 hd hp
              subst h1
              subst h2
              simp only [Competitor.mk.injEq]
              exact ⟨trivial, hd, hp⟩
            · exact Or.inr ⟨ol, hol, hne, hd, hr, hp⟩
        · rw [if_neg hrad, ih]
          constructor
          · rintro ⟨ol, hol, hne, hrest⟩
            exact ⟨ol, List.mem_cons_of_mem _ hol, hne, hrest⟩
          · rintro ⟨ol, hol, hne, hd, hr, hp⟩
            rcases List.mem_cons.mp hol with heq | hmem
            · have h2 : ol = oloc := congrArg Prod.snd heq
              subst h2
              exact absurd (hd ▸ hr) hrad
            · exact ⟨ol, hmem, hne, hd, hr, hp⟩

/-- The comparison of line 59 is transitive and total, so the sort output
is sorted by distance. -/
theorem sorted_by_distance (l : List Competitor) :
    (l.mergeSort CompetitivePricingModel.distLE).Pairwise
      (fun a b => a.distance ≤ b.distance) := by
  have h := List.sorted_mergeSort
    (fun a b c (hab : CompetitivePricingModel.distLE a b)
        (hbc : CompetitivePricingModel.distLE b c) => by
      simp only [CompetitivePricingModel.distLE, decide_eq_true_eq] at *
      exact le_trans hab hbc)
    (fun a b => by
      simp only [CompetitivePricingModel.distLE, Bool.or_eq_true, decide_eq_true_eq]
      exact le_total _ _)
    l
  exact h.imp (fun hab => by
    simpa [CompetitivePricingModel.distLE, decide_eq_true_eq] using hab)

/-- The competitor list is always sorted ascending by distance. -/
theorem find_competitors_sorted (m : CompetitivePricingModel) (sid : SpaceId) :
    (CompetitivePricingModel.find_competitors m sid).Pairwise
      (fun a b => a.distance ≤ b.distance) := by
  unfold CompetitivePricingModel.find_competitors
  cases h : m.locations.get? sid with
  | none => exact List.Pairwise.nil
  | some loc => exact sorted_by_distance _

/-- Membership in the rerouting filter: exactly the competitors at most
10% above the current price, reported with kilometres and savings. -/
theorem mem_reroutingScan (cp : ℝ) (s : Suggestion) (l : List Competitor) :
    s ∈ CompetitivePricingModel.reroutingScan cp l ↔
      ∃ c ∈ l, c.price ≤ cp * 1.1 ∧
        s = { space_id := c.space_id, distance_km := c.distance * 111,
              price := c.price, savings := cp - c.price } := by
  induction l with
  | nil => simp [CompetitivePricingModel.reroutingScan]
  | cons comp rest ih =>
      by_cases h : comp.price ≤ cp * 1.1
      · rw [CompetitivePricingModel.reroutingScan, if_pos h]
        simp only [List.mem_cons, ih]
        constructor
        · rintro (rfl | ⟨c, hc, hcp, rfl⟩)
          · exact ⟨comp, Or.inl rfl, h, rfl⟩
          · exact ⟨c, Or.inr hc, hcp, rfl⟩
        · rintro ⟨c, rfl | hc, hcp, rfl⟩
          · exact Or.inl rfl
          · exact Or.inr ⟨c, hc, hcp, rfl⟩
      · rw [CompetitivePricingModel.reroutingScan, if_neg h, ih]
        constructor
        · rintro ⟨c, hc, hcp, rfl⟩
          exact ⟨c, List.mem_cons_of_mem _ hc, hcp, rfl⟩
        · rintro ⟨c, hc, hcp, rfl⟩
          rcases List.mem_cons.mp hc with rfl | hc'
          · exact absurd hcp h
          · exact ⟨c, hc', hcp, rfl⟩

/-- The rerouting filter preserves the ascending-distance order, scaled
into kilometres. -/
theorem pairwise_reroutingScan (cp : ℝ) (l : List Competitor)
    (hl : l.Pairwise (fun a b => a.distance ≤ b.distance)) :
    (CompetitivePricingModel.reroutingScan cp l).Pairwise
      (fun a b => a.distance_km ≤ b.distance_km) := by
  induction l with
  | nil => exact List.Pairwise.nil
  | cons comp rest ih =>
      obtain ⟨hhead, htail⟩ := List.pairwise_cons.mp hl
      by_cases h : comp.price ≤ cp * 1.1
      · rw [CompetitivePricingModel.reroutingScan, if_pos h]
        refine List.pairwise_cons.mpr ⟨?_, ih htail⟩
        intro s hs
        obtain ⟨c, hc, _, rfl⟩ := (mem_reroutingScan cp s rest).mp hs
        show comp.distance * 111 ≤ c.distance * 111
        exact mul_le_mul_of_nonneg_right (hhead c hc) (by norm_num)
      · rw [CompetitivePricingModel.reroutingScan, if_neg h]
        exact ih htail

/-!
### Evolution of one unit's ledger entry under repeated updates
-/

/-- One `vivify; record` step on a unit that is already in the ledger:
the current price becomes the recorded price and the history grows by it. -/
theorem step_ledger_present (L : Ledger) (sid : SpaceId) (b p q : ℝ) (h : List ℝ)
    (hq : L.current_prices.get? sid = some q)
    (hh : L.price_history.get? sid = some h) :
    ((L.vivify sid b).record sid p).current_prices.get? sid = some p ∧
      ((L.vivify sid b).record sid p).price_history.get? sid = some (h ++ [p]) := by
  rw [Ledger.vivify_of_present L sid b q hq]
  refine ⟨Ledger.record_price_self _ _ _, ?_⟩
  rw [Ledger.record_history_self]
  unfold Dict.getD
  rw [hh]
  rfl

/-- Iterating the baseline update on a present unit extends its history by
one recorded price per input, the last one being the current price. -/
theorem runBaseline_ledger (sid : SpaceId) (inputs : List ℝ) :
    ∀ (m : BaselineLinearModel) (h : List ℝ) (q : ℝ),
      m.ledger.current_prices.get? sid = some q →
      m.ledger.price_history.get? sid = some h →
      h.getLast? = some q →
      ∃ (ext : List ℝ) (q' : ℝ),
        (runBaseline sid m inputs).ledger.price_history.get? sid = some (h ++ ext) ∧
          (runBaseline sid m inputs).ledger.current_prices.get? sid = some q' ∧
          ext.length = inputs.length ∧
          (h ++ ext).getLast? = some q' := by
  induction inputs with
  | nil =>
      intro m h q hq hh hl
      exact ⟨[], q, by simpa [runBaseline] using hh,
        by simpa [runBaseline] using hq, rfl, by simpa using hl⟩
  | cons occ rest ih =>
      intro m h q hq hh _
      have hstep := step_ledger_present m.ledger sid m.base_price
        (m.update_price sid occ).1 q h hq hh
      obtain ⟨ext, q', h1, h2, h3, h4⟩ := ih (m.update_price sid occ).2
        (h ++ [(m.update_price sid occ).1]) (m.update_price sid occ).1
        hstep.1 hstep.2 (List.getLast?_concat h)
      refine ⟨(m.update_price sid occ).1 :: ext, q', ?_, ?_, ?_, ?_⟩
      · show (runBaseline sid (m.update_price sid occ).2 rest).ledger.price_history.get?
          sid = _
        rw [h1, List.append_assoc]
        rfl
      · exact h2
      · simp [h3]
      · simpa [List.append_assoc] using h4

/-- Same evolution for the demand model. -/
theorem runDemand_ledger (sid : SpaceId) (inputs : List DemandInput) :
    ∀ (m : DemandBasedModel) (h : List ℝ) (q : ℝ),
      m.ledger.current_prices.get? sid = some q →
      m.ledger.price_history.get? sid = some h →
      h.getLast? = some q →
      ∃ (ext : List ℝ) (q' : ℝ),
        (runDemand sid m inputs).ledger.price_history.get? sid = some (h ++ ext) ∧
          (runDemand sid m inputs).ledger.current_prices.get? sid = some q' ∧
          ext.length = inputs.length ∧
          (h ++ ext).getLast? = some q' := by
  induction inputs with
  | nil =>
      intro m h q hq hh hl
      exact ⟨[], q, by simpa [runDemand] using hh,
        by simpa [runDemand] using hq, rfl, by simpa using hl⟩
  | cons i rest ih =>
      intro m h q hq hh _
      have hstep := step_ledger_present m.ledger sid m.base_price
        (m.update_price sid i.occupancy_rate i.queue_length i.traffic_level
          i.is_special_day i.vehicle_weight).1 q h hq hh
      obtain ⟨ext, q', h1, h2, h3, h4⟩ := ih
        (m.update_price sid i.occupancy_rate i.queue_length i.traffic_level
          i.is_special_day i.vehicle_weight).2
        (h ++ [(m.update_price sid i.occupancy_rate i.queue_length i.traffic_level
          i.is_special_day i.vehicle_weight).1])
        (m.update_price sid i.occupancy_rate i.queue_length i.traffic_level
          i.is_special_day i.vehicle_weight).1
        hstep.1 hstep.2 (List.getLast?_concat h)
      refine ⟨(m.update_price sid i.occupancy_rate i.queue_length i.traffic_level
          i.is_special_day i.vehicle_weight).1 :: ext, q', ?_, ?_, ?_, ?_⟩
      · show (runDemand sid (m.update_price sid i.occupancy_rate i.queue_length
            i.traffic_level i.is_special_day i.vehicle_weight).2
            rest).ledger.price_history.get? sid = _
        rw [h1, List.append_assoc]
        rfl
      · exact h2
      · simp [h3]
      · simpa [List.append_assoc] using h4

/-- Same evolution for the competitive model. -/
theorem runCompetitive_ledger (sid : SpaceId) (inputs : List CompetitiveInput) :
    ∀ (m : CompetitivePricingModel) (h : List ℝ) (q : ℝ),
      m.ledger.current_prices.get? sid = some q →
      m.ledger.price_history.get? sid = some h →
      h.getLast? = some q →
      ∃ (ext : List ℝ) (q' : ℝ),
        (runCompetitive sid m inputs).ledger.price_history.get? sid =
            some (h ++ ext) ∧
          (runCompetitive sid m inputs).ledger.current_prices.get? sid = some q' ∧
          ext.length = inputs.length ∧
          (h ++ ext).getLast? = some q' := by
  induction inputs with
  | nil =>
      intro m h q hq hh hl
      exact ⟨[], q, by simpa [runCompetitive] using hh,
        by simpa [runCompetitive] using hq, rfl, by simpa using hl⟩
  | cons i rest ih =>
      intro m h q hq hh _
      have hstep := step_ledger_present m.ledger sid m.base_price
        (m.update_price sid i.occupancy_rate i.queue_length i.traffic_level
          i.is_special_day i.vehicle_weight i.occupancy i.capacity).1 q h hq hh
      obtain ⟨ext, q', h1, h2, h3, h4⟩ := ih
        (m.update_price sid i.occupancy_rate i.queue_length i.traffic_level
          i.is_special_day i.vehicle_weight i.occupancy i.capacity).2
        (h ++ [(m.update_price sid i.occupancy_rate i.queue_length i.traffic_level
          i.is_special_day i.vehicle_weight i.occupancy i.capacity).1])
        (m.update_price sid i.occupancy_rate i.queue_length i.traffic_level
          i.is_special_day i.vehicle_weight i.occupancy i.capacity).1
        hstep.1 hstep.2 (List.getLast?_concat h)
      refine ⟨(m.update_price sid i.occupancy_rate i.queue_length i.traffic_level
          i.is_special_day i.vehicle_weight i.occupancy i.capacity).1 :: ext, q',
          ?_, ?_, ?_, ?_⟩
      · show (runCompetitive sid (m.update_price sid i.occupancy_rate i.queue_length
            i.traffic_level i.is_special_day i.vehicle_weight i.occupancy
            i.capacity).2 rest).ledger.price_history.get? sid = _
        rw [h1, List.append_assoc]
        rfl
      · exact h2
      · simp [h3]
      · simpa [List.append_assoc] using h4

/-- The first update of an absent unit seeds `[base_price]` and appends
the computed price. -/
theorem step_ledger_absent (L : Ledger) (sid : SpaceId) (b p : ℝ)
    (hq : L.current_prices.get? sid = none) :
    ((L.vivify sid b).record sid p).current_prices.get? sid = some p ∧
      ((L.vivify sid b).record sid p).price_history.get? sid = some [b, p] := by
  obtain ⟨h1, h2⟩ := Ledger.vivify_of_absent L sid b hq
  refine ⟨Ledger.record_price_self _ _ _, ?_⟩
  rw [Ledger.record_history_self]
  unfold Dict.getD
  rw [h2]
  rfl

/-- C6: for every model, after N `update_price` calls on a unit never
initialized and never seen, the unit's price history has length N+1, its
first element is `base_price` (the auto-vivified seed), and its last
element is the unit's stored current price. -/
theorem C6_history_after_n_updates :
    (∀ (m : BaselineLinearModel) (sid : SpaceId) (inputs : List ℝ),
      m.ledger.current_prices.get? sid = none →
      m.ledger.price_history.get? sid = none →
      ((runBaseline sid m inputs).get_price_history sid).length =
          inputs.length + 1 ∧
        ((runBaseline sid m inputs).get_price_history sid).head? =
          some m.base_price ∧
        ((runBaseline sid m inputs).get_price_history sid).getLast? =
          some ((runBaseline sid m inputs).get_current_price sid)) ∧
    (∀ (m : DemandBasedModel) (sid : SpaceId) (inputs : List DemandInput),
      m.ledger.current_prices.get? sid = none →
      m.ledger.price_history.get? sid = none →
      ((runDemand sid m inputs).get_price_history sid).length =
          inputs.length + 1 ∧
        ((runDemand sid m inputs).get_price_history sid).head? =
          some m.base_price ∧
        ((runDemand sid m inputs).get_price_history sid).getLast? =
          some ((runDemand sid m inputs).get_current_price sid)) ∧
    (∀ (m : CompetitivePricingModel) (sid : SpaceId)
        (inputs : List CompetitiveInput),
      m.ledger.current_prices.get? sid = none →
      m.ledger.price_history.get? sid = none →
      ((runCompetitive sid m inputs).get_price_history sid).length =
          inputs.length + 1 ∧
        ((runCompetitive sid m inputs).get_price_history sid).head? =
          some m.base_price ∧
        ((runCompetitive sid m inputs).get_price_history sid).getLast? =
          some ((runCompetitive sid m inputs).get_current_price sid)) := by
  refine ⟨?_, ?_, ?_⟩
  · intro m sid inputs hq hh
    cases inputs with
    | nil =>
        refine ⟨?_, ?_, ?_⟩ <;>
          simp [runBaseline, BaselineLinearModel.get_price_history,
            BaselineLinearModel.get_current_price, Dict.getD, hq, hh]
    | cons occ rest =>
        have hstep := step_ledger_absent m.ledger sid m.base_price
          (m.update_price sid occ).1 hq
        obtain ⟨ext, q', h1, h2, h3, h4⟩ := runBaseline_ledger sid rest
          (m.update_price sid occ).2
          [m.base_price, (m.update_price sid occ).1] (m.update_price sid occ).1
          hstep.1 hstep.2 rfl
        have hrun : runBaseline sid m (occ :: rest) =
            runBaseline sid (m.update_price sid occ).2 rest := rfl
        rw [hrun]
        unfold BaselineLinearModel.get_price_history
          BaselineLinearModel.get_current_price Dict.getD
        rw [h1, h2]
        refine ⟨?_, rfl, ?_⟩
        · simp [h3]
        · simpa using h4
  · intro m sid inputs hq hh
    cases inputs with
    | nil =>
        refine ⟨?_, ?_, ?_⟩ <;>
          simp [runDemand, DemandBasedModel.get_price_history,
            DemandBasedModel.get_current_price, Dict.getD, hq, hh]
    | cons i rest =>
        have hstep := step_ledger_absent m.ledger sid m.base_price
          (m.update_price sid i.occupancy_rate i.queue_length i.traffic_level
            i.is_special_day i.vehicle_weight).1 hq
        obtain ⟨ext, q', h1, h2, h3, h4⟩ := runDemand_ledger sid rest
          (m.update_price sid i.occupancy_rate i.queue_length i.traffic_level
            i.is_special_day i.vehicle_weight).2
          [m.base_price, (m.update_price sid i.occupancy_rate i.queue_length
            i.traffic_level i.is_special_day i.vehicle_weight).1]
          (m.update_price sid i.occupancy_rate i.queue_length i.traffic_level
            i.is_special_day i.vehicle_weight).1
          hstep.1 hstep.2 rfl
        have hrun : runDemand sid m (i :: rest) =
            runDemand sid (m.update_price sid i.occupancy_rate i.queue_length
              i.traffic_level i.is_special_day i.vehicle_weight).2 rest := rfl
        rw [hrun]
        unfold DemandBasedModel.get_price_history
          DemandBasedModel.get_current_price Dict.getD
        rw [h1, h2]
        refine ⟨?_, rfl, ?_⟩
        · simp [h3]
        · simpa using h4
  · intro m sid inputs hq hh
    cases inputs with
    | nil =>
        refine ⟨?_, ?_, ?_⟩ <;>
          simp [runCompetitive, CompetitivePricingModel.get_price_history,
            CompetitivePricingModel.get_current_price, Dict.getD, hq, hh]
    | cons i rest =>
        have hstep := step_ledger_absent m.ledger sid m.base_price
          (m.update_price sid i.occupancy_rate i.queue_length i.traffic_level
            i.is_special_day i.vehicle_weight i.occupancy i.capacity).1 hq
        obtain ⟨ext, q', h1, h2, h3, h4⟩ := runCompetitive_ledger sid rest
          (m.update_price sid i.occupancy_rate i.queue_length i.traffic_level
            i.is_special_day i.vehicle_weight i.occupancy i.capacity).2
          [m.base_price, (m.update_price sid i.occupancy_rate i.queue_length
            i.traffic_level i.is_special_day i.vehicle_weight i.occupancy
            i.capacity).1]
          (m.update_price sid i.occupancy_rate i.queue_length i.traffic_level
            i.is_special_day i.vehicle_weight i.occupancy i.capacity).1
          hstep.1 hstep.2 rfl
        have hrun : runCompetitive sid m (i :: rest) =
            runCompetitive sid (m.update_price sid i.occupancy_rate i.queue_length
              i.traffic_level i.is_special_day i.vehicle_weight i.occupancy
              i.capacity).2 rest := rfl
        rw [hrun]
        unfold CompetitivePricingModel.get_price_history
          CompetitivePricingModel.get_current_price Dict.getD
        rw [h1, h2]
        refine ⟨?_, rfl, ?_⟩
        · simp [h3]
        · simpa using h4

/-- C6 witness: two baseline updates of a fresh unit give a history of
length 3; one update gives length 2 for the other two models. -/
theorem C6_history_after_n_updates_witness :
    ((runBaseline "A" sampleBaseline [0.8, 0.2]).get_price_history "A").length = 3 ∧
      ((runBaseline "A" sampleBaseline [0.8, 0.2]).get_price_history "A").head? =
        some sampleBaseline.base_price ∧
      ((runBaseline "A" sampleBaseline [0.8, 0.2]).get_price_history "A").getLast? =
        some ((runBaseline "A" sampleBaseline [0.8, 0.2]).get_current_price "A") ∧
      ((runDemand "A" sampleDemand
          [⟨0.5, 3, 4, true, 1⟩]).get_price_history "A").length = 2 ∧
      ((runCompetitive "A" sampleCompetitiveEmpty
          [⟨0.5, 3, 4, true, 1, 2, 4⟩]).get_price_history "A").length = 2 := by
  obtain ⟨hb, hd, hc⟩ := C6_history_after_n_updates
  exact ⟨(hb sampleBaseline "A" [0.8, 0.2] rfl rfl).1,
    (hb sampleBaseline "A" [0.8, 0.2] rfl rfl).2.1,
    (hb sampleBaseline "A" [0.8, 0.2] rfl rfl).2.2,
    (hd sampleDemand "A" [⟨0.5, 3, 4, true, 1⟩] rfl rfl).1,
    (hc sampleCompetitiveEmpty "A" [⟨0.5, 3, 4, true, 1, 2, 4⟩] rfl rfl).1⟩

/-- C1: For every strategy (BaselineLinearModel, DemandBasedModel,
CompetitivePricingModel) and every call to `update_price` with a valid
(positive) base price, the price returned — and the current price then
stored for that unit — lies in `[base_price * 0.5, base_price * 2.0]`. -/
theorem C1_update_price_within_bounds :
    (∀ (m : BaselineLinearModel) (sid : SpaceId) (occupancy_rate : ℝ),
      0 < m.base_price →
      m.base_price * 0.5 ≤ (m.update_price sid occupancy_rate).1 ∧
        (m.update_price sid occupancy_rate).1 ≤ m.base_price * 2.0 ∧
        (m.update_price sid occupancy_rate).2.ledger.current_prices.get? sid =
          some (m.update_price sid occupancy_rate).1) ∧
    (∀ (m : DemandBasedModel) (sid : SpaceId)
        (occupancy_rate queue_length traffic_level : ℝ)
        (is_special_day : Bool) (vehicle_weight : ℝ),
      0 < m.base_price →
      m.base_price * 0.5 ≤ (m.update_price sid occupancy_rate queue_length
          traffic_level is_special_day vehicle_weight).1 ∧
        (m.update_price sid occupancy_rate queue_length traffic_level
          is_special_day vehicle_weight).1 ≤ m.base_price * 2.0 ∧
        (m.update_price sid occupancy_rate queue_length traffic_level
            is_special_day vehicle_weight).2.ledger.current_prices.get? sid =
          some (m.update_price sid occupancy_rate queue_length traffic_level
            is_special_day vehicle_weight).1) ∧
    (∀ (m : CompetitivePricingModel) (sid : SpaceId)
        (occupancy_rate queue_length traffic_level : ℝ)
        (is_special_day : Bool) (vehicle_weight : ℝ) (occupancy capacity : ℤ),
      0 < m.base_price →
      m.base_price * 0.5 ≤ (m.update_price sid occupancy_rate queue_length
          traffic_level is_special_day vehicle_weight occupancy capacity).1 ∧
        (m.update_price sid occupancy_rate queue_length traffic_level
          is_special_day vehicle_weight occupancy capacity).1 ≤ m.base_price * 2.0 ∧
        (m.update_price sid occupancy_rate queue_length traffic_level is_special_day
            vehicle_weight occupancy capacity).2.ledger.current_prices.get? sid =
          some (m.update_price sid occupancy_rate queue_length traffic_level
            is_special_day vehicle_weight occupancy capacity).1) := by
  refine ⟨fun m sid occ hb => ?_, fun m sid o q t s v hb => ?_,
    fun m sid o q t s v oc cap hb => ?_⟩ <;>
    refine ⟨?_, ?_, ?_⟩ <;>
    simp only [BaselineLinearModel.update_price, DemandBasedModel.update_price,
      CompetitivePricingModel.update_price]
  · exact (clamp_mem _ _ _ (by nlinarith)).1
  · exact (clamp_mem _ _ _ (by nlinarith)).2
  · exact Ledger.record_price_self _ _ _
  · exact (clamp_mem _ _ _ (by nlinarith)).1
  · exact (clamp_mem _ _ _ (by nlinarith)).2
  · exact Ledger.record_price_self _ _ _
  · exact (clamp_mem _ _ _ (by nlinarith)).1
  · exact (clamp_mem _ _ _ (by nlinarith)).2
  · exact Ledger.record_price_self _ _ _

/-- C1 witness: the bound holds at concrete calls on fresh default models. -/
theorem C1_update_price_within_bounds_witness :
    (sampleBaseline.base_price * 0.5 ≤ (sampleBaseline.update_price "A" 0.8).1 ∧
      (sampleBaseline.update_price "A" 0.8).1 ≤ sampleBaseline.base_price * 2.0 ∧
      (sampleBaseline.update_price "A" 0.8).2.ledger.current_prices.get? "A" =
        some (sampleBaseline.update_price "A" 0.8).1) ∧
    (sampleDemand.base_price * 0.5 ≤
        (sampleDemand.update_price "A" 0.5 3 4 true 1).1 ∧
      (sampleDemand.update_price "A" 0.5 3 4 true 1).1 ≤
        sampleDemand.base_price * 2.0 ∧
      (sampleDemand.update_price "A" 0.5 3 4 true 1).2.ledger.current_prices.get? "A" =
        some (sampleDemand.update_price "A" 0.5 3 4 true 1).1) ∧
    (sampleCompetitivePair.base_price * 0.5 ≤
        (sampleCompetitivePair.update_price "A" 0.5 3 4 true 1 2 4).1 ∧
      (sampleCompetitivePair.update_price "A" 0.5 3 4 true 1 2 4).1 ≤
        sampleCompetitivePair.base_price * 2.0 ∧
      (sampleCompetitivePair.update_price
          "A" 0.5 3 4 true 1 2 4).2.ledger.current_prices.get? "A" =
        some (sampleCompetitivePair.update_price "A" 0.5 3 4 true 1 2 4).1) :=
  ⟨C1_update_price_within_bounds.1 sampleBaseline "A" 0.8
      (by norm_num [sampleBaseline]),
    C1_update_price_within_bounds.2.1 sampleDemand "A" 0.5 3 4 true 1
      (by norm_num [sampleDemand]),
    C1_update_price_within_bounds.2.2 sampleCompetitivePair "A" 0.5 3 4 true 1 2 4
      (by norm_num [sampleCompetitivePair])⟩

/-- C2 counterexample: the claim says the dampened value above
`max_price = base_price * 2.0` is `max_price + (new_price - max_price) * 0.1`;
at `base_price = 10`, `new_price = 50` the code's dampening (line 35 of
baseline_model.py) yields `20 - 3 = 17`, not `20 + 3 = 23`. -/
theorem C2_counterexample :
    BaselineLinearModel.dampen 10 50 = 17 ∧
      BaselineLinearModel.dampen 10 50 ≠ 10 * 2.0 + (50 - 10 * 2.0) * 0.1 := by
  have h : BaselineLinearModel.dampen 10 50 = 17 := by
    unfold BaselineLinearModel.dampen
    norm_num
  exact ⟨h, by rw [h]; norm_num⟩

/-- C2 amended: the soft-bound dampening is asymmetric.  Below
`min_price = base_price * 0.5` the dampened value is
`min_price + (new_price - min_price) * 0.1` (10% of the undershoot below
`min_price`), but above `max_price = base_price * 2.0` it is
`max_price - (new_price - max_price) * 0.1` (pulled 10% of the overshoot
back inside the bound), both before the final hard clamp. -/
theorem C2_amended_dampening (base_price new_price : ℝ) (hb : 0 < base_price) :
    (new_price < base_price * 0.5 →
      BaselineLinearModel.dampen base_price new_price =
        base_price * 0.5 + (new_price - base_price * 0.5) * 0.1) ∧
    (new_price > base_price * 2.0 →
      BaselineLinearModel.dampen base_price new_price =
        base_price * 2.0 - (new_price - base_price * 2.0) * 0.1) := by
  unfold BaselineLinearModel.dampen
  constructor
  · intro h
    rw [if_pos h]
  · intro h
    rw [if_neg (by nlinarith), if_pos h]

/-- C2 amended witness: both dampening branches at `base_price = 10`. -/
theorem C2_amended_dampening_witness :
    BaselineLinearModel.dampen 10 2 = 10 * 0.5 + (2 - 10 * 0.5) * 0.1 ∧
      BaselineLinearModel.dampen 10 50 = 10 * 2.0 - (50 - 10 * 2.0) * 0.1 :=
  ⟨(C2_amended_dampening 10 2 (by norm_num)).1 (by norm_num),
    (C2_amended_dampening 10 50 (by norm_num)).2 (by norm_num)⟩

/-- C3: When `find_competitors` returns the empty list,
`calculate_competitive_adjustment` returns exactly `0.0`, and
`update_price` then returns exactly
`demand_weight * demand_price + competition_weight * current_price` with
`demand_price = base_price * (1 + lambda_param * tanh(demand))` and
`current_price` the stored price before the update — for every valid input
the final hard clamp does not disturb this value. -/
theorem C3_no_competitors_exact (m : CompetitivePricingModel) (sid : SpaceId)
    (occupancy_rate queue_length traffic_level : ℝ) (is_special_day : Bool)
    (vehicle_weight : ℝ) (occupancy capacity : ℤ)
    (hb : 0 < m.base_price)
    (hocc0 : 0 ≤ occupancy_rate) (hocc1 : occupancy_rate ≤ 1)
    (hq : 0 ≤ queue_length) (ht1 : 1 ≤ traffic_level) (ht10 : traffic_level ≤ 10)
    (hvw : 0 < vehicle_weight)
    (hcomp : CompetitivePricingModel.find_competitors m sid = [])
    (hcp₁ : m.base_price * 0.5 ≤ m.ledger.current_prices.getD sid m.base_price)
    (hcp₂ : m.ledger.current_prices.getD sid m.base_price ≤ m.base_price * 2.0) :
    m.calculate_competitive_adjustment sid occupancy capacity = 0.0 ∧
      (m.update_price sid occupancy_rate queue_length traffic_level is_special_day
          vehicle_weight occupancy capacity).1 =
        CompetitivePricingModel.demand_weight *
            (m.base_price * (1 + CompetitivePricingModel.lambda_param *
              CompetitivePricingModel.calculate_demand occupancy_rate queue_length
                traffic_level is_special_day vehicle_weight)) +
          CompetitivePricingModel.competition_weight *
            m.ledger.current_prices.getD sid m.base_price := by
  have hadj : m.calculate_competitive_adjustment sid occupancy capacity = 0.0 := by
    unfold CompetitivePricingModel.calculate_competitive_adjustment
    simp [hcomp]
  refine ⟨hadj, ?_⟩
  -- bounds on the squashed demand
  set cd := CompetitivePricingModel.calculate_demand occupancy_rate queue_length
    traffic_level is_special_day vehicle_weight with hcd
  have hcd_lt : cd < 1 := by
    rw [hcd]
    unfold CompetitivePricingModel.calculate_demand
    exact tanh_lt_one _
  have hcd_ge : (-0.2 : ℝ) ≤ cd := by
    rw [hcd]
    unfold CompetitivePricingModel.calculate_demand
    refine tanh_ge_of_ge _ _ (by norm_num) ?_
    have hmin0 : (0 : ℝ) ≤ min (queue_length / 20.0) 1.0 :=
      le_min (by positivity) (by norm_num)
    have hsdf : (0 : ℝ) ≤ (if is_special_day then (1.0 : ℝ) else 0.0) := by
      cases is_special_day <;> norm_num
    have htb : (traffic_level - 1) / 9.0 ≤ 1 := by linarith
    unfold CompetitivePricingModel.alpha CompetitivePricingModel.beta
      CompetitivePricingModel.gamma CompetitivePricingModel.delta
      CompetitivePricingModel.epsilon
    nlinarith
  -- the adjustment computed inside update_price (on the vivified state) is 0
  have hadj' : CompetitivePricingModel.calculate_competitive_adjustment
      { m with ledger := m.ledger.vivify sid m.base_price } sid occupancy capacity =
      0.0 := by
    unfold CompetitivePricingModel.calculate_competitive_adjustment
    simp [find_competitors_vivify, hcomp]
  set cp := m.ledger.current_prices.getD sid m.base_price with hcp
  have hgd : (m.ledger.vivify sid m.base_price).current_prices.getD sid
      m.base_price = cp := vivify_price_getD m.ledger sid m.base_price
  simp only [CompetitivePricingModel.update_price, hadj', hgd]
  rw [CompetitivePricingModel.demand_weight, CompetitivePricingModel.competition_weight,
    CompetitivePricingModel.lambda_param]
  have hbd1 : m.base_price * (-0.2) ≤ m.base_price * cd :=
    mul_le_mul_of_nonneg_left hcd_ge hb.le
  have hbd2 : m.base_price * cd ≤ m.base_price * 1 :=
    mul_le_mul_of_nonneg_left hcd_lt.le hb.le
  have hlow : m.base_price * 0.5 ≤
      0.7 * (m.base_price * (1 + 0.8 * cd)) + 0.3 * (cp * (1 + 0.0)) := by
    nlinarith
  have hhigh : 0.7 * (m.base_price * (1 + 0.8 * cd)) + 0.3 * (cp * (1 + 0.0)) ≤
      m.base_price * 2.0 := by
    nlinarith
  rw [clamp_eq_self _ _ _ hlow hhigh]
  ring

/-- C3 witness: a unit with no competitors (empty location registry) at a
concrete valid feature record. -/
theorem C3_no_competitors_exact_witness :
    sampleCompetitiveSolo.calculate_competitive_adjustment "A" 1 2 = 0.0 ∧
      (sampleCompetitiveSolo.update_price "A" 0.5 3 4 true 1 1 2).1 =
        CompetitivePricingModel.demand_weight *
            (sampleCompetitiveSolo.base_price *
              (1 + CompetitivePricingModel.lambda_param *
                CompetitivePricingModel.calculate_demand 0.5 3 4 true 1)) +
          CompetitivePricingModel.competition_weight *
            sampleCompetitiveSolo.ledger.current_prices.getD "A"
              sampleCompetitiveSolo.base_price :=
  C3_no_competitors_exact sampleCompetitiveSolo "A" 0.5 3 4 true 1 1 2
    (by norm_num [sampleCompetitiveSolo])
    (by norm_num) (by norm_num) (by norm_num) (by norm_num) (by norm_num)
    (by norm_num)
    (by
      unfold CompetitivePricingModel.find_competitors
      simp [sampleCompetitiveSolo, Dict.get?, CompetitivePricingModel.competitorScan])
    (by norm_num [sampleCompetitiveSolo, Dict.getD, Dict.get?])
    (by norm_num [sampleCompetitiveSolo, Dict.getD, Dict.get?])

/-- C5: `DemandBasedModel.update_price` is memoryless given inputs: the
returned price depends only on the feature inputs and `base_price`, not on
the unit id, the stored current price or the history. -/
theorem C5_demand_memoryless (m₁ m₂ : DemandBasedModel) (sid₁ sid₂ : SpaceId)
    (occupancy_rate queue_length traffic_level : ℝ) (is_special_day : Bool)
    (vehicle_weight : ℝ) (hbase : m₁.base_price = m₂.base_price) :
    (m₁.update_price sid₁ occupancy_rate queue_length traffic_level is_special_day
        vehicle_weight).1 =
      (m₂.update_price sid₂ occupancy_rate queue_length traffic_level is_special_day
        vehicle_weight).1 := by
  simp only [DemandBasedModel.update_price, hbase]

/-- C5 witness: a fresh unit of a fresh model and an already-priced unit of
a model with a different ledger state get the same price. -/
theorem C5_demand_memoryless_witness :
    (sampleDemand.update_price "B" 0.5 3 4 true 1).1 =
      (sampleDemandSeen.update_price "A" 0.5 3 4 true 1).1 :=
  C5_demand_memoryless sampleDemand sampleDemandSeen "B" "A" 0.5 3 4 true 1 rfl

/-- C7: With at least one competitor and `occupancy >= capacity`,
`calculate_competitive_adjustment` returns `-0.1` when the competitors'
mean price is strictly below the unit's current price and `0.05` otherwise,
independently of the size of the gap. -/
theorem C7_full_occupancy_adjustment (m : CompetitivePricingModel) (sid : SpaceId)
    (occupancy capacity : ℤ)
    (hne : CompetitivePricingModel.find_competitors m sid ≠ [])
    (hfull : occupancy ≥ capacity) :
    (((CompetitivePricingModel.find_competitors m sid).map Competitor.price).sum /
          ((CompetitivePricingModel.find_competitors m sid).length : ℝ) <
        m.ledger.current_prices.getD sid m.base_price →
      m.calculate_competitive_adjustment sid occupancy capacity = -0.1) ∧
    (m.ledger.current_prices.getD sid m.base_price ≤
        ((CompetitivePricingModel.find_competitors m sid).map Competitor.price).sum /
          ((CompetitivePricingModel.find_competitors m sid).length : ℝ) →
      m.calculate_competitive_adjustment sid occupancy capacity = 0.05) := by
  unfold CompetitivePricingModel.calculate_competitive_adjustment
  have hie : (CompetitivePricingModel.find_competitors m sid).isEmpty = false :=
    List.isEmpty_eq_false.mpr hne
  constructor
  · intro hlt
    simp only [hie, Bool.false_eq_true, if_false, if_pos hfull, if_pos hlt]
  · intro hge
    simp only [hie, Bool.false_eq_true, if_false, if_pos hfull,
      if_neg (not_lt.mpr hge)]

/-- C7 witness: two co-located units; B (price 5) is A's sole competitor,
A is full, and the mean competitor price 5 is below A's price 10. -/
theorem C7_full_occupancy_adjustment_witness :
    sampleCompetitivePair.calculate_competitive_adjustment "A" 3 3 = -0.1 := by
  have hfc : CompetitivePricingModel.find_competitors sampleCompetitivePair "A" =
      [{ space_id := "B", distance := 0, price := 5 }] := by
    unfold CompetitivePricingModel.find_competitors
    have h0 : CompetitivePricingModel.calculate_distance 0 0 0 0 = 0 := by
      unfold CompetitivePricingModel.calculate_distance
      simp
    simp [sampleCompetitivePair, Dict.get?, CompetitivePricingModel.competitorScan,
      h0, CompetitivePricingModel.competition_radius, Dict.getD]
    norm_num
  have h := (C7_full_occupancy_adjustment sampleCompetitivePair "A" 3 3
    (by rw [hfc]; simp) (le_refl 3)).1
  rw [hfc] at h
  apply h
  simp [sampleCompetitivePair, Dict.getD, Dict.get?]
  norm_num

/-- C8: `find_competitors(space_id)` returns exactly the other known units
within Euclidean distance `sqrt((lat1-lat2)^2 + (lon1-lon2)^2)` at most
`competition_radius` of the queried unit, each carrying that distance and
the competitor's current price snapshot, sorted ascending by distance; a
unit missing from the locations registry, or with no other unit in range,
yields the empty list. -/
theorem C8_find_competitors_spec (m : CompetitivePricingModel) (sid : SpaceId) :
    (m.locations.get? sid = none →
      CompetitivePricingModel.find_competitors m sid = []) ∧
    (CompetitivePricingModel.find_competitors m sid).Pairwise
      (fun a b => a.distance ≤ b.distance) ∧
    ∀ loc : Location, m.locations.get? sid = some loc →
      (∀ c : Competitor, c ∈ CompetitivePricingModel.find_competitors m sid ↔
        ∃ oloc : Location, (c.space_id, oloc) ∈ m.locations ∧ c.space_id ≠ sid ∧
          c.distance = Real.sqrt ((loc.latitude - oloc.latitude) ^ 2 +
            (loc.longitude - oloc.longitude) ^ 2) ∧
          c.distance ≤ CompetitivePricingModel.competition_radius ∧
          c.price = m.ledger.current_prices.getD c.space_id m.base_price) ∧
      ((∀ p ∈ m.locations, p.1 ≠ sid →
          ¬ Real.sqrt ((loc.latitude - p.2.latitude) ^ 2 +
            (loc.longitude - p.2.longitude) ^ 2) ≤
            CompetitivePricingModel.competition_radius) →
        CompetitivePricingModel.find_competitors m sid = []) := by
  refine ⟨?_, find_competitors_sorted m sid, ?_⟩
  · intro h
    unfold CompetitivePricingModel.find_competitors
    rw [h]
  · intro loc hloc
    have hfind : ∀ c : Competitor,
        c ∈ CompetitivePricingModel.find_competitors m sid ↔
          c ∈ CompetitivePricingModel.competitorScan m sid loc m.locations := by
      intro c
      unfold CompetitivePricingModel.find_competitors
      rw [hloc]
      exact List.mem_mergeSort
    constructor
    · intro c
      rw [hfind c, mem_competitorScan]
      unfold CompetitivePricingModel.calculate_distance
      exact Iff.rfl
    · intro hno
      rw [List.eq_nil_iff_forall_not_mem]
      intro c hc
      rw [hfind c, mem_competitorScan] at hc
      obtain ⟨ol, hol, hne, hd, hr, _⟩ := hc
      apply hno (c.space_id, ol) hol hne
      have h := hd ▸ hr
      unfold CompetitivePricingModel.calculate_distance at h
      exact h

/-- C8 witness: an unknown unit yields the empty list, and for two
co-located units B is found as A's competitor at distance 0 with its
current price. -/
theorem C8_find_competitors_spec_witness :
    CompetitivePricingModel.find_competitors sampleCompetitiveEmpty "Z" = [] ∧
      ({ space_id := "B", distance := 0, price := 5 } : Competitor) ∈
        CompetitivePricingModel.find_competitors sampleCompetitivePair "A" :=
  ⟨(C8_find_competitors_spec sampleCompetitiveEmpty "Z").1 rfl,
    (((C8_find_competitors_spec sampleCompetitivePair "A").2.2 ⟨0, 0⟩
        (by simp [sampleCompetitivePair, Dict.get?])).1 _).mpr
      ⟨⟨0, 0⟩, by simp [sampleCompetitivePair],
        by simp,
        by simp,
        by norm_num [CompetitivePricingModel.competition_radius],
        by simp [sampleCompetitivePair, Dict.getD, Dict.get?]⟩⟩

/-- C4 counterexample: a precondition-violating input (capacity 0) reaches
`CompetitivePricingModel.update_price` and the update does not fail — it
completes and appends to the unit's price history, so the Price Ledger
entry is modified rather than left unchanged. -/
theorem C4_counterexample :
    ((sampleCompetitiveSolo.update_price
        "A" 0.5 3 4 true 1 5 0).2.get_price_history "A").length = 2 ∧
      (sampleCompetitiveSolo.get_price_history "A").length = 1 := by
  constructor
  · have h := step_ledger_present sampleCompetitiveSolo.ledger "A" 10
      (sampleCompetitiveSolo.update_price "A" 0.5 3 4 true 1 5 0).1 10 [10] rfl rfl
    unfold CompetitivePricingModel.get_price_history Dict.getD
    rw [show (sampleCompetitiveSolo.update_price "A" 0.5 3 4 true 1 5 0).2.ledger =
        (sampleCompetitiveSolo.ledger.vivify "A" 10).record "A"
          (sampleCompetitiveSolo.update_price "A" 0.5 3 4 true 1 5 0).1 from rfl,
      h.2]
    rfl
  · rfl

/-- C4 amended: the strategies perform no precondition validation.  When a
`capacity ≤ 0` input reaches `CompetitivePricingModel.update_price`, the
update does not fail for that unit: it completes and performs the full
ledger write, setting the unit's current price to the returned price and
appending that price to its history.  (Non-finite float inputs are outside
the real-number embedding.) -/
theorem C4_amended_no_validation (m : CompetitivePricingModel) (sid : SpaceId)
    (occupancy_rate queue_length traffic_level : ℝ) (is_special_day : Bool)
    (vehicle_weight : ℝ) (occupancy capacity : ℤ) (hcap : capacity ≤ 0)
    (q : ℝ) (h : List ℝ)
    (hq : m.ledger.current_prices.get? sid = some q)
    (hh : m.ledger.price_history.get? sid = some h) :
    (m.update_price sid occupancy_rate queue_length traffic_level is_special_day
          vehicle_weight occupancy capacity).2.ledger.current_prices.get? sid =
        some (m.update_price sid occupancy_rate queue_length traffic_level
          is_special_day vehicle_weight occupancy capacity).1 ∧
      (m.update_price sid occupancy_rate queue_length traffic_level is_special_day
          vehicle_weight occupancy capacity).2.ledger.price_history.get? sid =
        some (h ++ [(m.update_price sid occupancy_rate queue_length traffic_level
          is_special_day vehicle_weight occupancy capacity).1]) :=
  step_ledger_present m.ledger sid m.base_price _ q h hq hh

/-- C4 amended witness: the full write happens at a concrete call with
capacity 0. -/
theorem C4_amended_no_validation_witness :
    (sampleCompetitiveSolo.update_price
          "A" 0.5 3 4 true 1 5 0).2.ledger.current_prices.get? "A" =
        some (sampleCompetitiveSolo.update_price "A" 0.5 3 4 true 1 5 0).1 ∧
      (sampleCompetitiveSolo.update_price
          "A" 0.5 3 4 true 1 5 0).2.ledger.price_history.get? "A" =
        some ([10] ++ [(sampleCompetitiveSolo.update_price
          "A" 0.5 3 4 true 1 5 0).1]) :=
  C4_amended_no_validation sampleCompetitiveSolo "A" 0.5 3 4 true 1 5 0
    (by decide) 10 [10] rfl rfl

/-- C9: `suggest_rerouting` returns the empty list whenever
`occupancy < capacity`; otherwise it returns at most 3 entries, each drawn
from the unit's competitors priced at most `current_price * 1.1`, reported
with `distance_km = distance * 111` and `savings = current_price - price`,
in ascending-distance order; every qualifying competitor is reported
unless the 3-entry budget is already full; and the selection takes the
nearest qualifying competitors: a qualifying competitor whose report is
omitted is at least as far as every reported suggestion. -/
theorem C9_suggest_rerouting_spec (m : CompetitivePricingModel) (sid : SpaceId)
    (occupancy capacity : ℤ) :
    (occupancy < capacity → m.suggest_rerouting sid occupancy capacity = []) ∧
    (m.suggest_rerouting sid occupancy capacity).length ≤ 3 ∧
    (∀ s ∈ m.suggest_rerouting sid occupancy capacity,
      ∃ c ∈ CompetitivePricingModel.find_competitors m sid,
        c.price ≤ m.ledger.current_prices.getD sid m.base_price * 1.1 ∧
          s = { space_id := c.space_id, distance_km := c.distance * 111,
                price := c.price,
                savings := m.ledger.current_prices.getD sid m.base_price - c.price }) ∧
    (m.suggest_rerouting sid occupancy capacity).Pairwise
      (fun a b => a.distance_km ≤ b.distance_km) ∧
    (capacity ≤ occupancy →
      ∀ c ∈ CompetitivePricingModel.find_competitors m sid,
        c.price ≤ m.ledger.current_prices.getD sid m.base_price * 1.1 →
          ({ space_id := c.space_id, distance_km := c.distance * 111,
              price := c.price,
              savings := m.ledger.current_prices.getD sid m.base_price - c.price } :
              Suggestion) ∈ m.suggest_rerouting sid occupancy capacity ∨
            (m.suggest_rerouting sid occupancy capacity).length = 3) ∧
    (∀ c ∈ CompetitivePricingModel.find_competitors m sid,
      c.price ≤ m.ledger.current_prices.getD sid m.base_price * 1.1 →
        ({ space_id := c.space_id, distance_km := c.distance * 111,
            price := c.price,
            savings := m.ledger.current_prices.getD sid m.base_price - c.price } :
            Suggestion) ∉ m.suggest_rerouting sid occupancy capacity →
          ∀ s ∈ m.suggest_rerouting sid occupancy capacity,
            s.distance_km ≤ c.distance * 111) := by
  by_cases hoc : occupancy < capacity
  · have hempty : m.suggest_rerouting sid occupancy capacity = [] := by
      unfold CompetitivePricingModel.suggest_rerouting
      rw [if_pos hoc]
    refine ⟨fun _ => hempty, ?_, ?_, ?_, ?_, ?_⟩
    · rw [hempty]; norm_num
    · rw [hempty]; intro s hs; exact absurd hs (List.not_mem_nil s)
    · rw [hempty]; exact List.Pairwise.nil
    · intro hfull
      exact absurd (lt_of_le_of_lt hfull hoc) (lt_irrefl _)
    · intro c _ _ _ s hs
      rw [hempty] at hs
      exact absurd hs (List.not_mem_nil s)
  · have hbody : m.suggest_rerouting sid occupancy capacity =
        (CompetitivePricingModel.reroutingScan
          (m.ledger.current_prices.getD sid m.base_price)
          (CompetitivePricingModel.find_competitors m sid)).take 3 := by
      unfold CompetitivePricingModel.suggest_rerouting
      rw [if_neg hoc]
    refine ⟨fun h => absurd h hoc, ?_, ?_, ?_, ?_, ?_⟩
    · rw [hbody]; exact List.length_take_le _ _
    · intro s hs
      rw [hbody] at hs
      exact (mem_reroutingScan _ s _).mp (List.take_subset _ _ hs)
    · rw [hbody]
      exact List.Pairwise.sublist (List.take_sublist _ _)
        (pairwise_reroutingScan _ _ (find_competitors_sorted m sid))
    case _ =>
      intro _ c hc hcp
      have hmem : ({ space_id := c.space_id, distance_km := c.distance * 111,
                     price := c.price,
                     savings := m.ledger.current_prices.getD sid m.base_price -
                       c.price } :
            Suggestion) ∈ CompetitivePricingModel.reroutingScan
          (m.ledger.current_prices.getD sid m.base_price)
          (CompetitivePricingModel.find_competitors m sid) :=
        (mem_reroutingScan _ _ _).mpr ⟨c, hc, hcp, rfl⟩
      rcases le_or_lt (CompetitivePricingModel.reroutingScan
          (m.ledger.current_prices.getD sid m.base_price)
          (CompetitivePricingModel.find_competitors m sid)).length 3 with hle | hlt
      · left
        rw [hbody, List.take_of_length_le hle]
        exact hmem
      · right
        rw [hbody, List.length_take]
        omega
    case _ =>
      intro c hc hcp hnot s hs
      have hmem : ({ space_id := c.space_id, distance_km := c.distance * 111,
                     price := c.price,
                     savings := m.ledger.current_prices.getD sid m.base_price -
                       c.price } :
            Suggestion) ∈ CompetitivePricingModel.reroutingScan
          (m.ledger.current_prices.getD sid m.base_price)
          (CompetitivePricingModel.find_competitors m sid) :=
        (mem_reroutingScan _ _ _).mpr ⟨c, hc, hcp, rfl⟩
      rw [hbody] at hnot hs
      have hdrop : ({ space_id := c.space_id, distance_km := c.distance * 111,
                      price := c.price,
                      savings := m.ledger.current_prices.getD sid m.base_price -
                        c.price } :
            Suggestion) ∈ (CompetitivePricingModel.reroutingScan
          (m.ledger.current_prices.getD sid m.base_price)
          (CompetitivePricingModel.find_competitors m sid)).drop 3 := by
        have hsplit : ({ space_id := c.space_id, distance_km := c.distance * 111,
                         price := c.price,
                         savings := m.ledger.current_prices.getD sid m.base_price -
                           c.price } :
              Suggestion) ∈ (CompetitivePricingModel.reroutingScan
            (m.ledger.current_prices.getD sid m.base_price)
            (CompetitivePricingModel.find_competitors m sid)).take 3 ++
            (CompetitivePricingModel.reroutingScan
              (m.ledger.current_prices.getD sid m.base_price)
              (CompetitivePricingModel.find_competitors m sid)).drop 3 := by
          rw [List.take_append_drop]
          exact hmem
        rcases List.mem_append.mp hsplit with h | h
        · exact absurd h hnot
        · exact h
      have hpw : ((CompetitivePricingModel.reroutingScan
            (m.ledger.current_prices.getD sid m.base_price)
            (CompetitivePricingModel.find_competitors m sid)).take 3 ++
          (CompetitivePricingModel.reroutingScan
            (m.ledger.current_prices.getD sid m.base_price)
            (CompetitivePricingModel.find_competitors m sid)).drop 3).Pairwise
          (fun a b => a.distance_km ≤ b.distance_km) := by
        rw [List.take_append_drop]
        exact pairwise_reroutingScan _ _ (find_competitors_sorted m sid)
      exact (List.pairwise_append.mp hpw).2.2 s hs _ hdrop

/-- C9 witness: below capacity the suggestion list is empty; at capacity,
unit B (price 5, within the 10% premium over price 10) is reported. -/
theorem C9_suggest_rerouting_spec_witness :
    sampleCompetitivePair.suggest_rerouting "A" 3 5 = [] ∧
      (({ space_id := "B", distance_km := (0 : ℝ) * 111, price := 5,
          savings := sampleCompetitivePair.ledger.current_prices.getD "A"
              sampleCompetitivePair.base_price - 5 } : Suggestion) ∈
          sampleCompetitivePair.suggest_rerouting "A" 3 3 ∨
        (sampleCompetitivePair.suggest_rerouting "A" 3 3).length = 3) := by
  constructor
  · exact (C9_suggest_rerouting_spec sampleCompetitivePair "A" 3 5).1 (by decide)
  · have hfc : CompetitivePricingModel.find_competitors sampleCompetitivePair "A" =
        [{ space_id := "B", distance := 0, price := 5 }] := by
      unfold CompetitivePricingModel.find_competitors
      have h0 : CompetitivePricingModel.calculate_distance 0 0 0 0 = 0 := by
        unfold CompetitivePricingModel.calculate_distance
        simp
      simp [sampleCompetitivePair, Dict.get?, CompetitivePricingModel.competitorScan,
        h0, CompetitivePricingModel.competition_radius, Dict.getD]
      norm_num
    exact (C9_suggest_rerouting_spec sampleCompetitivePair "A" 3 3).2.2.2.2.1
      (by decide) { space_id := "B", distance := 0, price := 5 }
      (by rw [hfc]; exact List.mem_cons_self _ _)
      (by
        have : sampleCompetitivePair.ledger.current_prices.getD "A"
            sampleCompetitivePair.base_price = 10 := by
          simp [sampleCompetitivePair, Dict.getD, Dict.get?]
        rw [this]
        norm_num)

/-- C10: an `update_price` call for unit X touches only X's ledger entry:
for every other unit Y, Y's current price, history and (for the competitive
model) stored location are unchanged. -/
theorem C10_update_price_frame :
    (∀ (m : BaselineLinearModel) (sid other : SpaceId) (occupancy_rate : ℝ),
      other ≠ sid →
      (m.update_price sid occupancy_rate).2.ledger.current_prices.get? other =
          m.ledger.current_prices.get? other ∧
        (m.update_price sid occupancy_rate).2.ledger.price_history.get? other =
          m.ledger.price_history.get? other) ∧
    (∀ (m : DemandBasedModel) (sid other : SpaceId)
        (occupancy_rate queue_length traffic_level : ℝ)
        (is_special_day : Bool) (vehicle_weight : ℝ),
      other ≠ sid →
      (m.update_price sid occupancy_rate queue_length traffic_level is_special_day
            vehicle_weight).2.ledger.current_prices.get? other =
          m.ledger.current_prices.get? other ∧
        (m.update_price sid occupancy_rate queue_length traffic_level is_special_day
            vehicle_weight).2.ledger.price_history.get? other =
          m.ledger.price_history.get? other) ∧
    (∀ (m : CompetitivePricingModel) (sid other : SpaceId)
        (occupancy_rate queue_length traffic_level : ℝ)
        (is_special_day : Bool) (vehicle_weight : ℝ) (occupancy capacity : ℤ),
      other ≠ sid →
      (m.update_price sid occupancy_rate queue_length traffic_level is_special_day
            vehicle_weight occupancy capacity).2.ledger.current_prices.get? other =
          m.ledger.current_prices.get? other ∧
        (m.update_price sid occupancy_rate queue_length traffic_level is_special_day
            vehicle_weight occupancy capacity).2.ledger.price_history.get? other =
          m.ledger.price_history.get? other ∧
        (m.update_price sid occupancy_rate queue_length traffic_level is_special_day
            vehicle_weight occupancy capacity).2.locations = m.locations) := by
  refine ⟨fun m sid other occ h => ?_, fun m sid other o q t s v h => ?_,
    fun m sid other o q t s v oc cap h => ?_⟩ <;>
    simp only [BaselineLinearModel.update_price, DemandBasedModel.update_price,
      CompetitivePricingModel.update_price]
  · exact ⟨((Ledger.record_frame _ sid other _ h.symm).1).trans
        (Ledger.vivify_frame m.ledger sid other m.base_price h.symm).1,
      ((Ledger.record_frame _ sid other _ h.symm).2).trans
        (Ledger.vivify_frame m.ledger sid other m.base_price h.symm).2⟩
  · exact ⟨((Ledger.record_frame _ sid other _ h.symm).1).trans
        (Ledger.vivify_frame m.ledger sid other m.base_price h.symm).1,
      ((Ledger.record_frame _ sid other _ h.symm).2).trans
        (Ledger.vivify_frame m.ledger sid other m.base_price h.symm).2⟩
  · exact ⟨((Ledger.record_frame _ sid other _ h.symm).1).trans
        (Ledger.vivify_frame m.ledger sid other m.base_price h.symm).1,
      ((Ledger.record_frame _ sid other _ h.symm).2).trans
        (Ledger.vivify_frame m.ledger sid other m.base_price h.symm).2,
      trivial⟩

/-- C10 witness: concrete updates of unit A leave unit B's entries intact. -/
theorem C10_update_price_frame_witness :
    ((sampleBaseline.update_price "A" 0.8).2.ledger.current_prices.get? "B" =
        sampleBaseline.ledger.current_prices.get? "B" ∧
      (sampleBaseline.update_price "A" 0.8).2.ledger.price_history.get? "B" =
        sampleBaseline.ledger.price_history.get? "B") ∧
    ((sampleCompetitivePair.update_price
          "A" 0.5 3 4 true 1 2 4).2.ledger.current_prices.get? "B" =
        sampleCompetitivePair.ledger.current_prices.get? "B" ∧
      (sampleCompetitivePair.update_price
          "A" 0.5 3 4 true 1 2 4).2.ledger.price_history.get? "B" =
        sampleCompetitivePair.ledger.price_history.get? "B" ∧
      (sampleCompetitivePair.update_price "A" 0.5 3 4 true 1 2 4).2.locations =
        sampleCompetitivePair.locations) :=
  ⟨C10_update_price_frame.1 sampleBaseline "A" "B" 0.8 (by decide),
    C10_update_price_frame.2.2 sampleCompetitivePair "A" "B" 0.5 3 4 true 1 2 4
      (by decide)⟩

end DynamicPricing
